import Mathlib

/-!
Verification development for the vacuum-world agent simulation
(HW1/agents.py): a two-location vacuum environment, reflex /
simple-reflex / model-based / table-driven decision policies, the
Environment step/run loop, object registration, and the agent
comparison harness.

Python values are embedded as follows: location constants loc_A = (0, 0)
and loc_B = (1, 0) become the two-constructor inductive type Loc (the
only locations ever occurring in the vacuum world dynamics); statuses
and actions are the Python strings themselves; the Python None returned
by a program that falls through all branches, or by a failed table
lookup, is Option.none; agent internal memory (the model-based agent
dict) is a function Loc to Option String, initially constantly none.
-/

/-- The two locations of the vacuum world.  In the source these are the
tuples loc_A = (0, 0) and loc_B = (1, 0). -/
inductive Loc where
  | A : Loc
  | B : Loc
deriving DecidableEq, Repr

/-- Source constant loc_A = (0, 0). -/
def loc_A : Loc := Loc.A

/-- Source constant loc_B = (1, 0). -/
def loc_B : Loc := Loc.B

/-- A percept: the pair (agent location, status string at that location),
as returned by TrivialVacuumEnvironment.percept. -/
abbrev Percept : Type := Loc × String

/-- Internal memory of an agent program: the model dict of
ModelBasedVacuumAgent, mapping each location to the last seen status
(Python None, i.e. Option.none, when never seen). -/
abbrev Model : Type := Loc → Option String

/-- The initial internal memory: model = \x7bloc_A: None, loc_B: None\x7d. -/
def emptyModel : Model := fun _ => none

/-- The agent program interface: given the private internal memory and a
percept, return the updated memory and the chosen action (an action is a
Python string, or none for the Python None fallthrough). -/
abbrev ProgramT : Type := Model → Percept → Model × Option String

/-- A Python runtime value that is either a string or an integer; needed
because interpret_input returns string codes while rule_match compares
the state against integer literals. -/
inductive PyVal where
  | pstr : String → PyVal
  | pint : Int → PyVal
deriving DecidableEq, Repr

/-- Python equality (==) between values of possibly different types: a
string never equals an integer. -/
def pyEq : PyVal → PyVal → Bool
  | PyVal.pstr s, PyVal.pstr t => s = t
  | PyVal.pint m, PyVal.pint n => m = n
  | _, _ => false

/-- Source function interpret_input: maps a percept to a discrete state
code.  Note the source returns the STRING literals one to four (its
comments say 1 means RIGHT, 2 means SUCK, 3 means LEFT, 4 means SUCK). -/
def interpret_input (percept : Percept) : PyVal :=
  if percept.1 = loc_A ∧ percept.2 = "Clean" then PyVal.pstr "1"
  else if percept.1 = loc_A ∧ percept.2 = "Dirty" then PyVal.pstr "2"
  else if percept.1 = loc_B ∧ percept.2 = "Clean" then PyVal.pstr "3"
  else PyVal.pstr "4"

/-- Source function SimpleReflexAgent.rule_match: iterates over rules and
on the first iteration compares the state against the INTEGER literals
1, 2, 3, returning Suck in the final else.  Every branch of the loop
body returns, so with nonempty rules exactly one iteration runs; with
empty rules the loop body never runs and Python returns None. -/
def rule_match (state : PyVal) (rules : List String) : Option String :=
  match rules with
  | [] => none
  | _ :: _ =>
    if pyEq state (PyVal.pint 1) then some "Right"
    else if pyEq state (PyVal.pint 2) then some "Suck"
    else if pyEq state (PyVal.pint 3) then some "Left"
    else some "Suck"

/-- The program installed by SimpleReflexAgent.__init__: interpret the
percept into a state code, then match it against the rules. -/
def simpleReflexProgram (rules : List String) (percept : Percept) : Option String :=
  rule_match (interpret_input percept) rules

/-- The rules list constructed in the demo code of the source:
rules = [Left, Right, Suck]. -/
def demoRules : List String := ["Left", "Right", "Suck"]

/-- The program installed by ReflexVacuumAgent.__init__: Suck when Dirty,
Right at loc_A, Left at loc_B; falling through every branch would give
Python None.  The internal memory is ignored and returned unchanged. -/
def reflexVacuumProgram : ProgramT := fun m percept =>
  (m,
    if percept.2 = "Dirty" then some "Suck"
    else if percept.1 = loc_A then some "Right"
    else if percept.1 = loc_B then some "Left"
    else none)

/-- The program installed by ModelBasedVacuumAgent.__init__: first update
the model with the observed status of the current location, then: NoOp
when the chained comparison model[loc_A] == model[loc_B] == Clean holds,
else Suck when Dirty, else Right at loc_A, else Left at loc_B. -/
def modelBasedProgram : ProgramT := fun model percept =>
  let location := percept.1
  let status := percept.2
  let model2 : Model := fun l => if l = location then some status else model l
  let action : Option String :=
    if model2 loc_A = model2 loc_B ∧ model2 loc_B = some "Clean" then some "NoOp"
    else if status = "Dirty" then some "Suck"
    else if location = loc_A then some "Right"
    else if location = loc_B then some "Left"
    else none
  (model2, action)

/-- Feed a list of percepts one call at a time to a model-based program
started with memory m, collecting the returned actions in order. -/
def mbRun (m : Model) : List Percept → List (Option String)
  | [] => []
  | p :: ps => (modelBasedProgram m p).2 :: mbRun (modelBasedProgram m p).1 ps

/-- The internal memory of the model-based program after consuming a list
of percepts, starting from memory m. -/
def modelAfter (m : Model) (ps : List Percept) : Model :=
  ps.foldl (fun m p => (modelBasedProgram m p).1) m

/-- Modelled from the claim text: the status most recently observed at a
location in a list of percepts (none when the location never occurs).
Later percepts take precedence over earlier ones. -/
def lastSeen : List Percept → Loc → Option String
  | [], _ => none
  | p :: ps, l =>
    match lastSeen ps l with
    | some s => some s
    | none => if p.1 = l then some p.2 else none

/-- The table of a TableDrivenAgent: a dictionary from full percept
sequences to actions, embedded as an association list (first match). -/
def tableGet (table : List (List Percept × String)) (key : List Percept) : Option String :=
  match table with
  | [] => none
  | e :: rest => if e.1 = key then some e.2 else tableGet rest key

/-- The program installed by TableDrivenAgent.__init__: append the new
percept to the stored history, then look the whole history up in the
table; a missing entry yields the Python None sentinel (no decision). -/
def tdProgram (table : List (List Percept × String)) (percepts : List Percept)
    (percept : Percept) : List Percept × Option String :=
  let ps := percepts ++ [percept]
  (ps, tableGet table ps)

/-- An agent as it sits inside an environment: its location and
performance slots (set by add_object), its alive flag (set true by
Agent.__init__), its private internal memory and its program.  Agents
are addressed by their index in the environment agents list, which
models Python object identity within that list. -/
structure AgentState where
  location : Loc
  performance : Int
  alive : Bool
  model : Model
  program : ProgramT

/-- The state of a TrivialVacuumEnvironment: the status dict (one string
entry per location, keys loc_A and loc_B) and the ordered agents list.
Only the agent-relevant parts of the objects list are modelled; the
objects list itself plays no role in the dynamics. -/
structure TVEnv where
  statusA : String
  statusB : String
  agents : List AgentState

/-- Dict read self.status[l]. -/
def getStatus (e : TVEnv) : Loc → String
  | Loc.A => e.statusA
  | Loc.B => e.statusB

/-- Dict write self.status[l] = s. -/
def setStatus (e : TVEnv) (l : Loc) (s : String) : TVEnv :=
  match l with
  | Loc.A => { e with statusA := s }
  | Loc.B => { e with statusB := s }

/-- Source TrivialVacuumEnvironment.percept: the pair of the agent
location and the status stored at that location. -/
def perceptOf (e : TVEnv) (a : AgentState) : Percept :=
  (a.location, getStatus e a.location)

/-- Source Object.is_alive: true iff the object carries an alive
attribute set true; every modelled agent carries the attribute. -/
def is_alive (a : AgentState) : Bool := a.alive

/-- Source Environment.is_done: done iff no registered agent is alive. -/
def is_done (e : TVEnv) : Bool := e.agents.all (fun a => ! is_alive a)

/-- Source TrivialVacuumEnvironment.execute_action for the agent at index
i of the agents list: Right moves to loc_B at cost 1, Left moves to
loc_A at cost 1, Suck scores 10 when the current location is Dirty and
always writes Clean there, and any other action (None included) falls
through the if/elif chain with no effect.  An index with no agent
corresponds to no call at all and leaves the environment unchanged. -/
def execute_action (e : TVEnv) (i : Nat) (action : Option String) : TVEnv :=
  match e.agents[i]? with
  | none => e
  | some agent =>
    if action = some "Right" then
      let agent2 := { agent with location := loc_B, performance := agent.performance - 1 }
      { e with agents := e.agents.set i agent2 }
    else if action = some "Left" then
      let agent2 := { agent with location := loc_A, performance := agent.performance - 1 }
      { e with agents := e.agents.set i agent2 }
    else if action = some "Suck" then
      if getStatus e agent.location = "Dirty" then
        let agent2 := { agent with performance := agent.performance + 10 }
        setStatus { e with agents := e.agents.set i agent2 } agent.location "Clean"
      else
        setStatus e agent.location "Clean"
    else e

/-- The percept-and-decide phase of Environment.step: every agent is
given its percept of the CURRENT environment and its program is called,
which may update only that agent's private memory; the chosen actions
are buffered.  Returns the agents with updated memories and the buffered
actions, in registration order. -/
def senseAct (e : TVEnv) : List AgentState × List (Option String) :=
  let rs := e.agents.map (fun a =>
    let r := a.program a.model (perceptOf e a)
    ({ a with model := r.1 }, r.2))
  (rs.map Prod.fst, rs.map Prod.snd)

/-- The execution phase of Environment.step: apply the buffered actions
to the agents in order, the action at position k going to the agent at
index i + k. -/
def execAll (e : TVEnv) (actions : List (Option String)) (i : Nat) : TVEnv :=
  match actions with
  | [] => e
  | a :: rest => execAll (execute_action e i a) rest (i + 1)

/-- Source Environment.exogenous_change: a no-op in this world. -/
def exogenous_change (e : TVEnv) : TVEnv := e

/-- Source Environment.step: nothing happens when the environment is
done; otherwise all percepts are gathered and all programs run first,
then every buffered action is executed in order, then the (vacuous)
exogenous change is applied. -/
def step (e : TVEnv) : TVEnv :=
  if is_done e then e
  else
    let sa := senseAct e
    exogenous_change (execAll { e with agents := sa.1 } sa.2 0)

/-- Observation of one step call: the (percept, action) pairs it
produces, in agent order; a step on a done environment gathers no
percepts and produces no actions. -/
def stepEvents (e : TVEnv) : List (Percept × Option String) :=
  if is_done e then []
  else e.agents.map (fun a => (perceptOf e a, (a.program a.model (perceptOf e a)).2))

/-- Source Environment.run: up to the given number of step calls, with
is_done checked before every call. -/
def run (e : TVEnv) : Nat → TVEnv
  | 0 => e
  | Nat.succ n => if is_done e then e else run (step e) n

/-- Environment.run instrumented with the number of times step is
actually invoked. -/
def runCount (e : TVEnv) : Nat → TVEnv × Nat
  | 0 => (e, 0)
  | Nat.succ n =>
    if is_done e then (e, 0)
    else
      let r := runCount (step e) n
      (r.1, r.2 + 1)

/-- Iterate the Suck action on the agent at index i. -/
def sucks (e : TVEnv) (i : Nat) : Nat → TVEnv
  | 0 => e
  | Nat.succ n => sucks (execute_action e i (some "Suck")) i n

/-- The slots set by Agent.__init__ before the agent is placed in an
environment: the program and the alive flag (set true). -/
structure RawAgent where
  program : ProgramT
  alive : Bool

/-- Source Agent.__init__: installs a program and sets alive = True. -/
def Agent_init (prog : ProgramT) : RawAgent :=
  { program := prog, alive := true }

/-- An entity as seen by the generic Environment.add_object, over raw
Python location values: a location is a tuple of integers (a list here)
or None (Option.none).  isAgent models isinstance(object, Agent). -/
structure PyEntity where
  isAgent : Bool
  location : Option (List Int)
  performance : Option Int
  alive : Bool

/-- The objects and agents lists of a generic Environment. -/
structure PyEnvLists where
  objects : List PyEntity
  agents : List PyEntity

/-- Python truthiness of a location value: None is falsy, a tuple is
falsy exactly when it is empty. -/
def truthyLoc : Option (List Int) → Bool
  | none => false
  | some l => ! l.isEmpty

/-- The raw tuple loc_A = (0, 0). -/
def pyLoc_A : List Int := [0, 0]

/-- The raw tuple loc_B = (1, 0). -/
def pyLoc_B : List Int := [1, 0]

/-- Source TrivialVacuumEnvironment.default_location: a uniformly random
choice between loc_A and loc_B, with the random draw made explicit as a
coin (true picks loc_A, false picks loc_B). -/
def trivialDefault_location (coin : Bool) : Option (List Int) :=
  some (if coin then pyLoc_A else pyLoc_B)

/-- Source Environment.add_object: sets object.location to
(location or self.default_location(object)) — the Python or falls back
to the default whenever the supplied argument is falsy — appends the
object to the objects list, and when it is an Agent also sets its
performance to 0 and appends it to the agents list.  The result of
self.default_location(object) is passed in as defaultLoc; the function
returns the updated lists and the updated entity. -/
def add_object (defaultLoc : Option (List Int)) (env : PyEnvLists)
    (obj : PyEntity) (location : Option (List Int)) : PyEnvLists × PyEntity :=
  let obj1 := { obj with location := if truthyLoc location then location else defaultLoc }
  if obj1.isAgent then
    let obj2 := { obj1 with performance := some 0 }
    ({ objects := env.objects ++ [obj2], agents := env.agents ++ [obj2] }, obj2)
  else
    ({ env with objects := env.objects ++ [obj1] }, obj1)

/-- The agent record produced by test_agent placing a fresh agent in an
environment: add_object with no location argument, so the location is
the random default choice (coin true picks loc_A), performance is 0 and
the alive flag (from Agent.__init__) is true. -/
def mkAgentAt (coin : Bool) (prog : ProgramT) : AgentState :=
  { location := if coin then loc_A else loc_B
    performance := 0
    alive := true
    model := emptyModel
    program := prog }

/-- One trial of test_agent: place a fresh agent (location drawn by the
coin) into the environment, run it for the given number of steps, and
read its final performance slot.  The fresh agent sits at the index
that was the old length of the agents list. -/
def trialFinal (prog : ProgramT) (coin : Bool) (steps : Nat) (env : TVEnv) : Int :=
  let env1 := { env with agents := env.agents ++ [mkAgentAt coin prog] }
  let env2 := run env1 steps
  match env2.agents[env.agents.length]? with
  | some a => a.performance
  | none => 0

/-- Source test_agent, total and random-draw positions made explicit:
coins is the stream of location draws and k the position of the next
draw; returns the accumulated total of final performances together with
the stream position after the loop (one draw per environment). -/
def test_agent (coins : Nat → Bool) (k : Nat) (prog : ProgramT) (steps : Nat) :
    List TVEnv → Int × Nat
  | [] => (0, k)
  | env :: rest =>
    let f := trialFinal prog (coins k) steps env
    let r := test_agent coins (k + 1) prog steps rest
    (f + r.1, r.2)

/-- Source test_agent result: float(total) / len(envs), as a rational. -/
def test_agent_mean (coins : Nat → Bool) (k : Nat) (prog : ProgramT) (steps : Nat)
    (envs : List TVEnv) : ℚ × Nat :=
  let r := test_agent coins k prog steps envs
  (((r.1 : Int) : ℚ) / ((envs.length : Nat) : ℚ), r.2)

/-- The per-factory loop of compare_agents: each agent factory is run by
test_agent on (a deep copy of) the SAME envs list, the random stream
position threading through the trials in order. -/
def compare_agents_aux (coins : Nat → Bool) (envs : List TVEnv) (steps : Nat) :
    List ProgramT → Nat → List (ProgramT × ℚ)
  | [], _ => []
  | A :: rest, k =>
    let r := test_agent_mean coins k A steps envs
    (A, r.1) :: compare_agents_aux coins envs steps rest r.2

/-- Source compare_agents: build the n environment instances once (the
i-th call of the environment factory), then score every agent factory on
deep copies of that same list (deep copy is the identity on these pure
values). -/
def compare_agents (coins : Nat → Bool) (EnvFactory : Nat → TVEnv)
    (AgentFactories : List ProgramT) (n steps : Nat) : List (ProgramT × ℚ) :=
  compare_agents_aux coins ((List.range n).map EnvFactory) steps AgentFactories 0

/-- Modelled from the claim text: the list of the n final performance
values, one per trial, the trial on the environment at stream position k
drawing its start location from coins k. -/
def finals (coins : Nat → Bool) (prog : ProgramT) (steps k : Nat) :
    List TVEnv → List Int
  | [] => []
  | env :: rest => trialFinal prog (coins k) steps env :: finals coins prog steps (k + 1) rest

/-- Modelled from the claim text: the expected result of compare_agents,
pairing each agent factory with the arithmetic mean (sum divided by n)
of its n final performance values, all factories reading the same
environment list built once from the factory. -/
def specMeans (coins : Nat → Bool) (EnvFactory : Nat → TVEnv) (n steps : Nat) :
    List ProgramT → Nat → List (ProgramT × ℚ)
  | [], _ => []
  | A :: rest, k =>
    (A, (((finals coins A steps k ((List.range n).map EnvFactory)).sum : Int) : ℚ) / ((n : Nat) : ℚ))
      :: specMeans coins EnvFactory n steps rest (k + n)



/-- Writing the status dict never touches the agents list. -/
theorem setStatus_agents (e : TVEnv) (l : Loc) (s : String) :
    (setStatus e l s).agents = e.agents := by
  cases l <;> rfl

/-- Reading back the written dict entry. -/
theorem getStatus_setStatus_self (e : TVEnv) (l : Loc) (s : String) :
    getStatus (setStatus e l s) l = s := by
  cases l <;> rfl

/-- A dict write leaves the other entry unchanged. -/
theorem getStatus_setStatus_ne (e : TVEnv) (l l2 : Loc) (s : String) (h : l2 ≠ l) :
    getStatus (setStatus e l s) l2 = getStatus e l2 := by
  cases l <;> cases l2 <;> first | rfl | exact absurd rfl h

/-- Writing a dict entry with the value it already holds is a no-op. -/
theorem setStatus_eq_self (e : TVEnv) (l : Loc) (s : String) (h : getStatus e l = s) :
    setStatus e l s = e := by
  obtain ⟨sA, sB, ag⟩ := e
  cases l <;> (simp [getStatus] at h; simp [setStatus, h])

/-- Replacing the agents list leaves the status dict unchanged. -/
theorem getStatus_update_agents (e : TVEnv) (x : List AgentState) (l : Loc) :
    getStatus { e with agents := x } l = getStatus e l := by
  cases l <;> rfl

/-- Overwriting a list entry with a value that agrees under f leaves the
f-image of the list unchanged. -/
theorem map_set_self {α β : Type} (f : α → β) :
    ∀ (l : List α) (i : Nat) (x : α), (∀ y, l[i]? = some y → f x = f y) →
      (l.set i x).map f = l.map f
  | [], _, _, _ => rfl
  | a :: as, 0, x, h => by
    have hx : f x = f a := h a (by simp)
    simp [List.set, hx]
  | a :: as, Nat.succ i, x, h => by
    have ih := map_set_self f as i x (fun y hy => h y (by simpa using hy))
    simp [List.set, ih]

/-- all after map is all of the composition. -/
theorem all_map_general {α β : Type} (f : α → β) (p : β → Bool) :
    ∀ l : List α, (l.map f).all p = l.all (fun a => p (f a))
  | [] => rfl
  | a :: as => by simp [all_map_general f p as]

/-- execute_action never changes the number of agents. -/
theorem exec_agents_length (e : TVEnv) (i : Nat) (a : Option String) :
    (execute_action e i a).agents.length = e.agents.length := by
  cases h : e.agents[i]? with
  | none => simp [execute_action, h]
  | some ag =>
    simp only [execute_action, h]
    split_ifs <;> simp [setStatus_agents, List.length_set]

/-- execute_action never changes any alive flag. -/
theorem exec_alive (e : TVEnv) (i : Nat) (a : Option String) :
    (execute_action e i a).agents.map (fun x => x.alive) = e.agents.map (fun x => x.alive) := by
  cases h : e.agents[i]? with
  | none => simp [execute_action, h]
  | some ag =>
    have hset : ∀ (x : AgentState), x.alive = ag.alive →
        (e.agents.set i x).map (fun y => y.alive) = e.agents.map (fun y => y.alive) := by
      intro x hx
      exact map_set_self _ _ _ _ (fun y hy => by rw [h] at hy; cases hy; exact hx)
    simp only [execute_action, h]
    split_ifs
    · exact hset _ rfl
    · exact hset _ rfl
    · rw [setStatus_agents]; exact hset _ rfl
    · rw [setStatus_agents]
    · rfl

/-- execute_action at index i leaves every other index of the agents
list untouched. -/
theorem exec_getElem_ne (e : TVEnv) (i j : Nat) (a : Option String) (hj : j ≠ i) :
    (execute_action e i a).agents[j]? = e.agents[j]? := by
  cases h : e.agents[i]? with
  | none => simp [execute_action, h]
  | some ag =>
    simp only [execute_action, h]
    split_ifs <;> simp [setStatus_agents, List.getElem?_set_ne (Ne.symm hj)]

/-- The Right and Left actions never touch the status dict. -/
theorem exec_status_LR (e : TVEnv) (i : Nat) (a : Option String)
    (h : a = some "Right" ∨ a = some "Left") :
    (execute_action e i a).statusA = e.statusA ∧ (execute_action e i a).statusB = e.statusB := by
  cases h with
  | inl h => subst h; cases hh : e.agents[i]? <;> simp [execute_action, hh]
  | inr h => subst h; cases hh : e.agents[i]? <;> simp [execute_action, hh]

/-- No action touches the status entry of a location other than the
current location of the acting agent. -/
theorem exec_status_frame (e : TVEnv) (i : Nat) (a : Option String) (ag : AgentState)
    (h : e.agents[i]? = some ag) (l : Loc) (hl : l ≠ ag.location) :
    getStatus (execute_action e i a) l = getStatus e l := by
  simp only [execute_action, h]
  split_ifs
  · rw [getStatus_update_agents]
  · rw [getStatus_update_agents]
  · rw [getStatus_setStatus_ne _ _ _ _ hl, getStatus_update_agents]
  · rw [getStatus_setStatus_ne _ _ _ _ hl]
  · rfl

/-- The percept-and-decide phase only updates private memories: the alive
flags of the agents are untouched. -/
theorem senseAct_fst_alive (e : TVEnv) :
    (senseAct e).1.map (fun x => x.alive) = e.agents.map (fun x => x.alive) := by
  simp only [senseAct, List.map_map]
  rfl

/-- Executing a buffered list of actions never changes any alive flag. -/
theorem execAll_alive :
    ∀ (actions : List (Option String)) (e : TVEnv) (i : Nat),
      (execAll e actions i).agents.map (fun x => x.alive) = e.agents.map (fun x => x.alive)
  | [], _, _ => rfl
  | a :: rest, e, i => by
    simp only [execAll]
    rw [execAll_alive rest, exec_alive]

/-- A step never changes any alive flag. -/
theorem step_alive (e : TVEnv) :
    (step e).agents.map (fun x => x.alive) = e.agents.map (fun x => x.alive) := by
  unfold step
  split_ifs
  · rfl
  · simp only [exogenous_change]
    rw [execAll_alive]
    exact senseAct_fst_alive e

/-- is_done only looks at the alive flags. -/
theorem is_done_eq_alive_map (e : TVEnv) :
    is_done e = (e.agents.map (fun a => a.alive)).all (fun b => ! b) := by
  rw [all_map_general]
  rfl

/-- Two environments with the same alive flags agree on is_done. -/
theorem is_done_congr (e e2 : TVEnv)
    (h : e.agents.map (fun a => a.alive) = e2.agents.map (fun a => a.alive)) :
    is_done e = is_done e2 := by
  rw [is_done_eq_alive_map, is_done_eq_alive_map, h]

/-- A step never changes whether the environment is done. -/
theorem step_is_done (e : TVEnv) : is_done (step e) = is_done e :=
  is_done_congr _ _ (step_alive e)

/-- An environment holding an alive agent is not done. -/
theorem is_done_false_of_alive (e : TVEnv) (h : ∃ ag ∈ e.agents, ag.alive = true) :
    is_done e = false := by
  obtain ⟨ag, hmem, hal⟩ := h
  by_contra hne
  have htrue : is_done e = true := by revert hne; cases is_done e <;> simp
  have hall : e.agents.all (fun a => ! is_alive a) = true := htrue
  have := List.all_eq_true.mp hall ag hmem
  simp [is_alive, hal] at this

/-- Having an alive agent is readable off the alive-flag image. -/
theorem alive_exists_iff_mem (e : TVEnv) :
    (∃ ag ∈ e.agents, ag.alive = true) ↔ true ∈ e.agents.map (fun a => a.alive) :=
  List.mem_map.symm

/-- run never performs more step invocations than its budget. -/
theorem runCount_le (e : TVEnv) (n : Nat) : (runCount e n).2 ≤ n := by
  induction n generalizing e with
  | zero => exact Nat.le_refl 0
  | succ n ih =>
    simp only [runCount]
    split_ifs
    · exact Nat.zero_le _
    · exact Nat.succ_le_succ (ih (step e))

/-- The instrumented run computes the same final environment as run. -/
theorem runCount_fst (e : TVEnv) (n : Nat) : (runCount e n).1 = run e n := by
  induction n generalizing e with
  | zero => rfl
  | succ n ih =>
    simp only [runCount, run]
    split_ifs
    · rfl
    · exact ih (step e)

/-- With an alive agent the early exit never fires: run uses its whole
budget of step invocations. -/
theorem runCount_exact (e : TVEnv) (n : Nat) (h : ∃ ag ∈ e.agents, ag.alive = true) :
    (runCount e n).2 = n := by
  induction n generalizing e with
  | zero => rfl
  | succ n ih =>
    have hdone := is_done_false_of_alive e h
    have hstep : ∃ ag ∈ (step e).agents, ag.alive = true := by
      rw [alive_exists_iff_mem, step_alive]
      exact (alive_exists_iff_mem e).mp h
    simp only [runCount, hdone]
    simp [ih (step e) hstep]

/-- The memory returned by the model-based program is the point update of
the old memory at the perceived location. -/
theorem mb_fst_eq (m : Model) (p : Percept) :
    (modelBasedProgram m p).1 = fun l => if l = p.1 then some p.2 else m l := rfl

/-- The action returned by the model-based program, written in terms of
the updated memory. -/
theorem mb_snd_eq (m : Model) (p : Percept) :
    (modelBasedProgram m p).2 =
      (if (modelBasedProgram m p).1 loc_A = (modelBasedProgram m p).1 loc_B ∧
          (modelBasedProgram m p).1 loc_B = some "Clean" then some "NoOp"
       else if p.2 = "Dirty" then some "Suck"
       else if p.1 = loc_A then some "Right"
       else if p.1 = loc_B then some "Left"
       else none) := rfl

/-- Appending one percept advances the accumulated memory by one program
call. -/
theorem modelAfter_append_single (m : Model) (ps : List Percept) (p : Percept) :
    modelAfter m (ps ++ [p]) = (modelBasedProgram (modelAfter m ps) p).1 := by
  simp [modelAfter, List.foldl_append]

/-- The i-th action of a model-based percept feed is the program applied
to the memory accumulated over the first i percepts. -/
theorem mbRun_getElem :
    ∀ (ps : List Percept) (m : Model) (i : Nat) (h : i < ps.length),
      (mbRun m ps)[i]? = some ((modelBasedProgram (modelAfter m (ps.take i)) ps[i]).2)
  | [], _, i, h => absurd h (by simp)
  | p :: rest, m, 0, h => by simp [mbRun, modelAfter]
  | p :: rest, m, Nat.succ i, h => by
    have h2 : i < rest.length := by simpa using h
    simp only [mbRun, List.getElem?_cons_succ]
    rw [mbRun_getElem rest (modelBasedProgram m p).1 i h2]
    simp [modelAfter]

/-- The accumulated memory holds the most recently observed status at
each location, falling back to the initial memory. -/
theorem modelAfter_lastSeen :
    ∀ (ps : List Percept) (m : Model) (l : Loc),
      modelAfter m ps l =
        match lastSeen ps l with
        | some s => some s
        | none => m l
  | [], _, _ => rfl
  | p :: rest, m, l => by
    have ih := modelAfter_lastSeen rest ((modelBasedProgram m p).1) l
    have hcons : modelAfter m (p :: rest) = modelAfter ((modelBasedProgram m p).1) rest := rfl
    rw [hcons, ih]
    cases hls : lastSeen rest l with
    | some s => simp [lastSeen, hls]
    | none =>
      by_cases hp : p.1 = l
      · simp [lastSeen, hls, hp, mb_fst_eq]
      · have hp2 : ¬ l = p.1 := fun hh => hp hh.symm
        simp [lastSeen, hls, hp, hp2, mb_fst_eq]

/-- From the empty initial memory, the accumulated memory is exactly the
most recently observed status. -/
theorem modelAfter_empty (ps : List Percept) (l : Loc) :
    modelAfter emptyModel ps l = lastSeen ps l := by
  rw [modelAfter_lastSeen]
  cases lastSeen ps l <;> rfl

/-- C1: the spec rule table says (A,Clean) yields Right, (A,Dirty) yields
Suck, (B,Clean) yields Left, (B,Dirty) yields Suck, and the comments in
interpret_input document the same intent; but interpret_input returns the
STRING code and rule_match compares it with INTEGER literals, Python
cross-type equality is always false, and so the else branch fires and
the simple reflex program returns Suck on every percept of the domain
(with the demo rules list; the spec expected action Right at (A,Clean)
and Left at (B,Clean)). -/
theorem simpleReflex_rule_table_broken :
    simpleReflexProgram demoRules (loc_A, "Clean") = some "Suck" ∧
    simpleReflexProgram demoRules (loc_A, "Dirty") = some "Suck" ∧
    simpleReflexProgram demoRules (loc_B, "Clean") = some "Suck" ∧
    simpleReflexProgram demoRules (loc_B, "Dirty") = some "Suck" ∧
    interpret_input (loc_A, "Clean") = PyVal.pstr "1" ∧
    pyEq (PyVal.pstr "1") (PyVal.pint 1) = false := by
  decide

/-- C2 counterexample: feeding the percepts (A,Clean), (A,Dirty),
(B,Clean) to one model-based program, the third call has observed Clean
at both locations at least once (percepts one and three), yet it returns
Left, not NoOp: the model keeps only the LAST seen status and the later
(A,Dirty) overwrote the Clean entry for A. -/
theorem modelBased_everObserved_cex :
    mbRun emptyModel [(loc_A, "Clean"), (loc_A, "Dirty"), (loc_B, "Clean")]
      = [some "Right", some "Suck", some "Left"] ∧
    (loc_A, "Clean") ∈ [(loc_A, "Clean"), (loc_A, "Dirty"), (loc_B, "Clean")] ∧
    (loc_B, "Clean") ∈ [(loc_A, "Clean"), (loc_A, "Dirty"), (loc_B, "Clean")] ∧
    (some "Left" : Option String) ≠ some "NoOp" := by
  decide

/-- C2 (amended): for every percept sequence, the i-th call of the
model-based program returns NoOp iff the MOST RECENTLY observed status
at loc_A and at loc_B (up to and including call i) are both Clean; on
every other call it returns Suck when the current status is Dirty, else
Right at loc_A, else Left at loc_B. -/
theorem modelBased_noop_iff_lastSeen (ps : List Percept) (i : Nat) (h : i < ps.length) :
    ((mbRun emptyModel ps)[i]? = some (some "NoOp") ↔
      (lastSeen (ps.take (i + 1)) loc_A = some "Clean" ∧
       lastSeen (ps.take (i + 1)) loc_B = some "Clean")) ∧
    (¬ (lastSeen (ps.take (i + 1)) loc_A = some "Clean" ∧
        lastSeen (ps.take (i + 1)) loc_B = some "Clean") →
      (mbRun emptyModel ps)[i]? =
        some (if ps[i].2 = "Dirty" then some "Suck"
              else if ps[i].1 = loc_A then some "Right"
              else some "Left")) := by
  have hidx := mbRun_getElem ps emptyModel i h
  have htake : ps.take (i + 1) = ps.take i ++ [ps[i]] := by
    rw [List.take_succ, List.getElem?_eq_getElem h]
    rfl
  have hM : ∀ l, lastSeen (ps.take (i + 1)) l =
      (modelBasedProgram (modelAfter emptyModel (ps.take i)) ps[i]).1 l := by
    intro l
    rw [← modelAfter_empty, htake, modelAfter_append_single]
  rw [hidx, hM loc_A, hM loc_B, mb_snd_eq]
  constructor
  · simp only [Option.some.injEq]
    split_ifs with hc hd ha hb
    · constructor
      · intro _
        exact ⟨hc.1.trans hc.2, hc.2⟩
      · intro _
        rfl
    all_goals
      constructor
      · intro hEq
        exact absurd hEq (by decide)
      · intro hcc
        exact absurd ⟨hcc.1.trans hcc.2.symm, hcc.2⟩ hc
  · intro hnot
    have hc : ¬ ((modelBasedProgram (modelAfter emptyModel (ps.take i)) ps[i]).1 loc_A =
          (modelBasedProgram (modelAfter emptyModel (ps.take i)) ps[i]).1 loc_B ∧
        (modelBasedProgram (modelAfter emptyModel (ps.take i)) ps[i]).1 loc_B = some "Clean") := by
      intro hcc
      exact hnot ⟨hcc.1.trans hcc.2, hcc.2⟩
    rw [if_neg hc]
    by_cases hd : ps[i].2 = "Dirty"
    · rw [if_pos hd, if_pos hd]
    · rw [if_neg hd, if_neg hd]
      by_cases ha : ps[i].1 = loc_A
      · rw [if_pos ha, if_pos ha]
      · rw [if_neg ha, if_neg ha, if_pos]
        cases hl : ps[i].1 with
        | A => exact absurd hl ha
        | B => rfl

/-- C2 witness: on the percept feed (A,Dirty), (A,Clean), (B,Clean) the
most recently observed statuses at both locations are Clean by the third
call, and the theorem yields that this call returns NoOp. -/
theorem modelBased_noop_iff_lastSeen_witness :
    (mbRun emptyModel [(loc_A, "Dirty"), (loc_A, "Clean"), (loc_B, "Clean")])[2]?
      = some (some "NoOp") :=
  (modelBased_noop_iff_lastSeen
    [(loc_A, "Dirty"), (loc_A, "Clean"), (loc_B, "Clean")] 2 (by decide)).1.mpr
    (by decide)

/-- The scenario environment of the spec: A Dirty, B Clean, one fixed
reflex agent at A with performance 0 and alive (as set by Agent.__init__
and add_object). -/
def scenarioEnv : TVEnv :=
  { statusA := "Dirty"
    statusB := "Clean"
    agents := [{ location := loc_A, performance := 0, alive := true,
                 model := emptyModel, program := reflexVacuumProgram }] }

/-- C3: from A=Dirty, B=Clean with a fixed reflex agent at A, step one
perceives (A,Dirty), does Suck, reaches performance 10 and A becomes
Clean; step two perceives (A,Clean), does Right, performance 9, location
B; step three perceives (B,Clean), does Left, performance 8, location A. -/
theorem reflex_scenario_trace :
    stepEvents scenarioEnv = [((loc_A, "Dirty"), some "Suck")] ∧
    (step scenarioEnv).statusA = "Clean" ∧
    (step scenarioEnv).statusB = "Clean" ∧
    (step scenarioEnv).agents.map (fun a => a.performance) = [10] ∧
    (step scenarioEnv).agents.map (fun a => a.location) = [loc_A] ∧
    stepEvents (step scenarioEnv) = [((loc_A, "Clean"), some "Right")] ∧
    (step (step scenarioEnv)).agents.map (fun a => a.performance) = [9] ∧
    (step (step scenarioEnv)).agents.map (fun a => a.location) = [loc_B] ∧
    stepEvents (step (step scenarioEnv)) = [((loc_B, "Clean"), some "Left")] ∧
    (step (step (step scenarioEnv))).agents.map (fun a => a.performance) = [8] ∧
    (step (step (step scenarioEnv))).agents.map (fun a => a.location) = [loc_A] := by
  decide

/-- C4: run checks is_done before every one of its at most n step
invocations, a done environment yields zero invocations and an unchanged
state, and step itself is a no-op on a done environment, gathering no
percepts and executing no actions. -/
theorem run_budget_and_done_guard (e : TVEnv) (n : Nat) :
    (runCount e n).2 ≤ n ∧
    (runCount e n).1 = run e n ∧
    (is_done e = true → runCount e n = (e, 0) ∧ run e n = e) ∧
    (is_done e = true → step e = e ∧ stepEvents e = []) := by
  refine ⟨runCount_le e n, runCount_fst e n, ?_, ?_⟩
  · intro hdone
    cases n with
    | zero => exact ⟨rfl, rfl⟩
    | succ n => constructor <;> simp [runCount, run, hdone]
  · intro hdone
    constructor <;> simp [step, stepEvents, hdone]

/-- A concrete done environment: its only agent has a false alive flag. -/
def doneEnv : TVEnv :=
  { statusA := "Dirty"
    statusB := "Dirty"
    agents := [{ location := loc_A, performance := 0, alive := false,
                 model := emptyModel, program := reflexVacuumProgram }] }

/-- C4 witness: on a concrete done environment with budget 5, run makes
zero step invocations, leaves the environment unchanged, and a direct
step is a no-op with no events. -/
theorem run_budget_and_done_guard_witness :
    (runCount doneEnv 5).2 ≤ 5 ∧ runCount doneEnv 5 = (doneEnv, 0) ∧
    step doneEnv = doneEnv ∧ stepEvents doneEnv = [] := by
  have h := run_budget_and_done_guard doneEnv 5
  have hdone : is_done doneEnv = true := by decide
  exact ⟨h.1, (h.2.2.1 hdone).1, (h.2.2.2 hdone).1, (h.2.2.2 hdone).2⟩

/-- Suck on a location already Clean is the identity on the whole
environment: the Dirty test fails (no score change) and the dict write
re-writes the value Clean it already holds. -/
theorem exec_suck_clean (e : TVEnv) (i : Nat) (ag : AgentState)
    (h1 : e.agents[i]? = some ag) (h2 : getStatus e ag.location = "Clean") :
    execute_action e i (some "Suck") = e := by
  simp only [execute_action, h1]
  have hD : ¬ (getStatus e ag.location = "Dirty") := by rw [h2]; decide
  simp only [if_neg (show ¬ ((some "Suck" : Option String) = some "Right") by decide),
    if_neg (show ¬ ((some "Suck" : Option String) = some "Left") by decide),
    if_pos (show (some "Suck" : Option String) = some "Suck" from rfl), if_neg hD]
  exact setStatus_eq_self e ag.location "Clean" h2

/-- Iterated Suck on a Clean location never changes the environment. -/
theorem sucks_eq_self (e : TVEnv) (i : Nat) (ag : AgentState)
    (h1 : e.agents[i]? = some ag) (h2 : getStatus e ag.location = "Clean") :
    ∀ n, sucks e i n = e
  | 0 => rfl
  | Nat.succ n => by
    rw [sucks, exec_suck_clean e i ag h1 h2, sucks_eq_self e i ag h1 h2 n]

/-- C5: when the acting agent's current location is already Clean, any
number of Suck actions changes no performance value and leaves that
location Clean. -/
theorem suck_clean_idempotent (e : TVEnv) (i : Nat) (ag : AgentState)
    (h1 : e.agents[i]? = some ag) (h2 : getStatus e ag.location = "Clean") (n : Nat) :
    (sucks e i n).agents.map (fun a => a.performance) = e.agents.map (fun a => a.performance) ∧
    getStatus (sucks e i n) ag.location = "Clean" := by
  rw [sucks_eq_self e i ag h1 h2 n]
  exact ⟨rfl, h2⟩

/-- The agent of the C5 witness environment. -/
def suckAgent : AgentState :=
  { location := loc_A, performance := 7, alive := true,
    model := emptyModel, program := reflexVacuumProgram }

/-- The C5 witness environment: the agent sits at A, which is Clean. -/
def suckEnv : TVEnv := { statusA := "Clean", statusB := "Dirty", agents := [suckAgent] }

/-- C5 witness: four Suck actions on the Clean location A leave the
performance list and the status of A unchanged. -/
theorem suck_clean_idempotent_witness :
    (sucks suckEnv 0 4).agents.map (fun a => a.performance)
      = suckEnv.agents.map (fun a => a.performance) ∧
    getStatus (sucks suckEnv 0 4) suckAgent.location = "Clean" :=
  suck_clean_idempotent suckEnv 0 suckAgent rfl rfl 4

/-- C6: every action other than Right, Left and Suck — the string NoOp
and the Python None no-decision sentinel included — falls through the
if/elif chain of execute_action and leaves the environment (agent
location, agent performance, status dict) entirely unchanged. -/
theorem unrecognized_action_ignored (e : TVEnv) (i : Nat) (a : Option String)
    (hR : a ≠ some "Right") (hL : a ≠ some "Left") (hS : a ≠ some "Suck") :
    execute_action e i a = e := by
  cases h : e.agents[i]? with
  | none => simp [execute_action, h]
  | some ag => simp [execute_action, h, hR, hL, hS]

/-- The C6 witness environment. -/
def ignoreEnv : TVEnv :=
  { statusA := "Dirty", statusB := "Dirty",
    agents := [{ location := loc_B, performance := 3, alive := true,
                 model := emptyModel, program := reflexVacuumProgram }] }

/-- C6 witness: the NoOp action, and the None sentinel that the
table-driven program returns when its percept history is absent from the
(here empty) table, both leave a concrete environment unchanged. -/
theorem unrecognized_action_ignored_witness :
    execute_action ignoreEnv 0 (some "NoOp") = ignoreEnv ∧
    execute_action ignoreEnv 0 ((tdProgram [] [] (loc_A, "Clean")).2) = ignoreEnv ∧
    (tdProgram [] [] (loc_A, "Clean")).2 = none :=
  ⟨unrecognized_action_ignored ignoreEnv 0 (some "NoOp") (by decide) (by decide) (by decide),
   unrecognized_action_ignored ignoreEnv 0 _ (by decide) (by decide) (by decide),
   rfl⟩

/-- C9: execute_action touches only the acting agent and only the status
entry of that agent's current location: every other index of the agents
list is unchanged, every other location keeps its status, and the Right
and Left actions change no status entry at all. -/
theorem execute_action_frame (e : TVEnv) (i : Nat) (a : Option String) :
    (∀ j, j ≠ i → (execute_action e i a).agents[j]? = e.agents[j]?) ∧
    (∀ ag, e.agents[i]? = some ag → ∀ l, l ≠ ag.location →
      getStatus (execute_action e i a) l = getStatus e l) ∧
    ((a = some "Right" ∨ a = some "Left") →
      (execute_action e i a).statusA = e.statusA ∧
      (execute_action e i a).statusB = e.statusB) :=
  ⟨fun j hj => exec_getElem_ne e i j a hj,
   fun ag hag l hl => exec_status_frame e i a ag hag l hl,
   fun h => exec_status_LR e i a h⟩

/-- The first agent of the C9 witness environment, at location A. -/
def frameAgentA : AgentState :=
  { location := loc_A, performance := 0, alive := true,
    model := emptyModel, program := reflexVacuumProgram }

/-- The C9 witness environment: two agents, at A and at B, both
locations Dirty. -/
def frameEnv : TVEnv :=
  { statusA := "Dirty", statusB := "Dirty",
    agents := [frameAgentA,
               { location := loc_B, performance := 0, alive := true,
                 model := emptyModel, program := reflexVacuumProgram }] }

/-- C9 witness: agent 0 sucking at A leaves agent 1 and the status of B
unchanged, and a Right move by agent 0 leaves both status entries
unchanged. -/
theorem execute_action_frame_witness :
    (execute_action frameEnv 0 (some "Suck")).agents[1]? = frameEnv.agents[1]? ∧
    getStatus (execute_action frameEnv 0 (some "Suck")) loc_B = getStatus frameEnv loc_B ∧
    (execute_action frameEnv 0 (some "Right")).statusA = frameEnv.statusA ∧
    (execute_action frameEnv 0 (some "Right")).statusB = frameEnv.statusB :=
  ⟨(execute_action_frame frameEnv 0 (some "Suck")).1 1 (by decide),
   (execute_action_frame frameEnv 0 (some "Suck")).2.1 frameAgentA rfl loc_B (by decide),
   ((execute_action_frame frameEnv 0 (some "Right")).2.2 (Or.inl rfl)).1,
   ((execute_action_frame frameEnv 0 (some "Right")).2.2 (Or.inl rfl)).2⟩

/-- add_object never touches the alive flag of the entity. -/
theorem add_object_alive (d : Option (List Int)) (env : PyEnvLists)
    (obj : PyEntity) (loc : Option (List Int)) :
    (add_object d env obj loc).2.alive = obj.alive := by
  simp only [add_object]
  split_ifs <;> rfl

/-- C10: Agent.__init__ sets the alive flag true; execute_action, step
and add_object never change any alive flag; hence an environment holding
one alive agent is never done and run always uses its entire step
budget — the liveness early exit never fires. -/
theorem alive_invariant_run_exact (prog : ProgramT) (e : TVEnv) (i : Nat)
    (a : Option String) (n : Nat) (d : Option (List Int)) (envL : PyEnvLists)
    (obj : PyEntity) (loc : Option (List Int)) :
    (Agent_init prog).alive = true ∧
    (execute_action e i a).agents.map (fun x => x.alive) = e.agents.map (fun x => x.alive) ∧
    (step e).agents.map (fun x => x.alive) = e.agents.map (fun x => x.alive) ∧
    (add_object d envL obj loc).2.alive = obj.alive ∧
    ((∃ ag ∈ e.agents, ag.alive = true) → is_done e = false ∧ (runCount e n).2 = n) :=
  ⟨rfl, exec_alive e i a, step_alive e, add_object_alive d envL obj loc,
   fun h => ⟨is_done_false_of_alive e h, runCount_exact e n h⟩⟩

/-- The agent of the C10 witness environment: alive, as Agent.__init__
makes it. -/
def aliveAgent : AgentState :=
  { location := loc_B, performance := 0, alive := true,
    model := emptyModel, program := reflexVacuumProgram }

/-- The C10 witness environment: one alive agent. -/
def aliveEnv : TVEnv := { statusA := "Clean", statusB := "Clean", agents := [aliveAgent] }

/-- C10 witness: with one alive agent, the environment is not done and a
budget of three yields exactly three step invocations. -/
theorem alive_invariant_run_exact_witness :
    is_done aliveEnv = false ∧ (runCount aliveEnv 3).2 = 3 :=
  (alive_invariant_run_exact reflexVacuumProgram aliveEnv 0 none 3 none
      { objects := [], agents := [] }
      { isAgent := true, location := none, performance := none, alive := true }
      none).2.2.2.2
    ⟨aliveAgent, by simp [aliveEnv], rfl⟩

/-- There is one final performance value per trial environment. -/
theorem finals_length (coins : Nat → Bool) (prog : ProgramT) (steps : Nat) :
    ∀ (envs : List TVEnv) (k : Nat),
      (finals coins prog steps k envs).length = envs.length
  | [], _ => rfl
  | env :: rest, k => by
    simp [finals, finals_length coins prog steps rest (k + 1)]

/-- The test_agent loop accumulates the sum of the per-trial final
performances and advances the random stream once per environment. -/
theorem test_agent_eq (coins : Nat → Bool) (prog : ProgramT) (steps : Nat) :
    ∀ (envs : List TVEnv) (k : Nat),
      test_agent coins k prog steps envs =
        ((finals coins prog steps k envs).sum, k + envs.length)
  | [], k => by simp [test_agent, finals]
  | env :: rest, k => by
    simp only [test_agent, test_agent_eq coins prog steps rest (k + 1), finals,
      List.sum_cons, List.length_cons, Prod.mk.injEq]
    exact ⟨by trivial, by omega⟩

/-- The per-factory loop of compare_agents computes, for each factory,
the arithmetic mean of its final performance values. -/
theorem compare_aux_eq (coins : Nat → Bool) (EnvF : Nat → TVEnv) (n steps : Nat) :
    ∀ (As : List ProgramT) (k : Nat),
      compare_agents_aux coins ((List.range n).map EnvF) steps As k =
        specMeans coins EnvF n steps As k
  | [], _ => rfl
  | A :: rest, k => by
    have hlen : ((List.range n).map EnvF).length = n := by simp
    simp only [compare_agents_aux, specMeans, test_agent_mean,
      test_agent_eq coins A steps, hlen]
    rw [compare_aux_eq coins EnvF n steps rest (k + n)]

/-- C7: compare_agents builds the n environment instances once (the same
list, read by every agent factory) and returns, for each factory, that
factory paired with the arithmetic mean — sum divided by n — of its n
final performance values, of which there are exactly n. -/
theorem compare_agents_mean (coins : Nat → Bool) (EnvF : Nat → TVEnv)
    (As : List ProgramT) (n steps : Nat) (_h : 1 ≤ n) :
    compare_agents coins EnvF As n steps = specMeans coins EnvF n steps As 0 ∧
    (∀ prog k, (finals coins prog steps k ((List.range n).map EnvF)).length = n) := by
  constructor
  · exact compare_aux_eq coins EnvF n steps As 0
  · intro prog k
    rw [finals_length]
    simp

/-- The environment built by the C7 witness factory. -/
def trialEnv : TVEnv := { statusA := "Dirty", statusB := "Clean", agents := [] }

/-- C7 witness: a concrete run of compare_agents over one environment
instance and one agent factory equals the spec-side mean expression. -/
theorem compare_agents_mean_witness :
    compare_agents (fun _ => true) (fun _ => trialEnv) [reflexVacuumProgram] 1 3
      = specMeans (fun _ => true) (fun _ => trialEnv) 1 3 [reflexVacuumProgram] 0 ∧
    (finals (fun _ => true) reflexVacuumProgram 3 0
      ((List.range 1).map (fun _ => trialEnv))).length = 1 :=
  ⟨(compare_agents_mean (fun _ => true) (fun _ => trialEnv) [reflexVacuumProgram] 1 3
      (by decide)).1,
   (compare_agents_mean (fun _ => true) (fun _ => trialEnv) [reflexVacuumProgram] 1 3
      (by decide)).2 reflexVacuumProgram 0⟩

/-- The entity used by the C8 counterexample and witness: an agent-like
entity with no location yet. -/
def cexEntity : PyEntity :=
  { isAgent := true, location := none, performance := none, alive := true }

/-- Empty objects and agents lists. -/
def emptyLists : PyEnvLists := { objects := [], agents := [] }

/-- C8 counterexample: the explicitly supplied location argument (), the
empty tuple, is falsy, so add_object ignores it and consults the
default-location policy of the trivial vacuum environment: whichever way
the random draw goes, the entity's location is loc_A or loc_B, not the
supplied argument. -/
theorem add_object_falsy_location_cex :
    (add_object (trivialDefault_location true) emptyLists cexEntity (some [])).2.location
      = some pyLoc_A ∧
    (add_object (trivialDefault_location false) emptyLists cexEntity (some [])).2.location
      = some pyLoc_B ∧
    (some pyLoc_A : Option (List Int)) ≠ some [] ∧
    (some pyLoc_B : Option (List Int)) ≠ some [] := by
  decide

/-- C8 (amended): add_object sets the entity's location to the supplied
argument when that argument is truthy (a nonempty tuple); when the
argument is absent or falsy (None or the empty tuple) the
default-location result is used instead; and it appends the entity to
the agents list with performance 0 exactly when the entity is an Agent,
while every entity is appended to the objects list. -/
theorem add_object_location_and_registration (d : Option (List Int)) (env : PyEnvLists)
    (obj : PyEntity) (loc : Option (List Int)) :
    (truthyLoc loc = true → (add_object d env obj loc).2.location = loc) ∧
    (truthyLoc loc = false → (add_object d env obj loc).2.location = d) ∧
    (obj.isAgent = true →
      (add_object d env obj loc).1.agents = env.agents ++ [(add_object d env obj loc).2] ∧
      (add_object d env obj loc).2.performance = some 0) ∧
    (obj.isAgent = false →
      (add_object d env obj loc).1.agents = env.agents ∧
      (add_object d env obj loc).2.performance = obj.performance) ∧
    (add_object d env obj loc).1.objects = env.objects ++ [(add_object d env obj loc).2] := by
  refine ⟨?_, ?_, ?_, ?_, ?_⟩
  · intro hT
    simp [add_object, hT]
    split_ifs <;> rfl
  · intro hT
    simp [add_object, hT]
    split_ifs <;> rfl
  · intro hA
    constructor <;> simp [add_object, hA]
  · intro hA
    constructor <;> simp [add_object, hA]
  · simp [add_object]
    split_ifs <;> rfl

/-- C8 witness: a truthy explicit location wins over the default, an
absent location falls back to the default, and an Agent entity is
appended to the agents list with performance 0. -/
theorem add_object_location_and_registration_witness :
    (add_object (some pyLoc_B) emptyLists cexEntity (some pyLoc_A)).2.location
      = some pyLoc_A ∧
    (add_object (some pyLoc_B) emptyLists cexEntity none).2.location = some pyLoc_B ∧
    (add_object (some pyLoc_B) emptyLists cexEntity (some pyLoc_A)).1.agents
      = emptyLists.agents ++ [(add_object (some pyLoc_B) emptyLists cexEntity (some pyLoc_A)).2] ∧
    (add_object (some pyLoc_B) emptyLists cexEntity (some pyLoc_A)).2.performance = some 0 :=
  ⟨(add_object_location_and_registration (some pyLoc_B) emptyLists cexEntity (some pyLoc_A)).1
      (by decide),
   (add_object_location_and_registration (some pyLoc_B) emptyLists cexEntity none).2.1
      (by decide),
   ((add_object_location_and_registration (some pyLoc_B) emptyLists cexEntity (some pyLoc_A)).2.2.1
      (by decide)).1,
   ((add_object_location_and_registration (some pyLoc_B) emptyLists cexEntity (some pyLoc_A)).2.2.1
      (by decide)).2⟩
